import Mathlib

/-!
Shallow embedding of the queue and playback scheduler of the
euphoria-argondjbot repository (file argondjbot.py, class Playlist),
together with theorems checking the specification claims about it.

Times and durations are modelled as integer seconds; the asyncio task
running the method body of Playlist._play is modelled as a small-step
state machine with a program counter holding its single suspension
point (the sleep), plus a fresh-id counter that provides task identity.
-/

/-- Python list indexing l[i]: nonnegative indices are positional,
negative indices wrap around from the end, and an index out of range on
either side gives none (the IndexError case). -/
def pyIndex {α : Type} (l : List α) (i : Int) : Option α :=
  let j : Int := if 0 ≤ i then i else (l.length : Int) + i
  if 0 ≤ j then l.get? j.toNat else none

/-- Python slice l[:p]: for nonnegative p take the first p elements
(clamped at the length), for negative p take length + p elements
(clamped at zero). -/
def pySliceTo {α : Type} (l : List α) (p : Int) : List α :=
  if 0 ≤ p then l.take p.toNat else l.take ((l.length : Int) + p).toNat

/-- Python list.insert(i, x) for a nonnegative i: inserts x before
index i, appending when i is at or beyond the end (take and drop clamp
exactly as the Python method does). -/
def pyInsertAt {α : Type} (l : List α) (i : Nat) (x : α) : List α :=
  l.take i ++ x :: l.drop i

/-- The Video class: id, title, raw duration (seconds), and the
informational region restriction lists (blocked, allowed), each of
which may be absent. -/
structure Video where
  id : String
  title : String
  raw_duration : Int
  blocked : Option (List String)
  allowed : Option (List String)
deriving DecidableEq

/-- Video.DELAY, the fixed start-delay compensation in seconds. -/
def Video.DELAY : Int := 4

/-- Video.duration: the scheduled duration, raw duration plus DELAY. -/
def Video.duration (v : Video) : Int := v.raw_duration + Video.DELAY

/-- A queue entry: a (video, player) pair as stored in
Playlist.waiting. -/
abbrev Entry := Video × String

/-- The program counter of the background task running Playlist._play:
either about to test the while-loop condition, or suspended inside
asyncio.sleep. -/
inductive TaskPhase
  | atLoop
  | sleeping
deriving DecidableEq

/-- A handle to the background task: its identity (a fresh number) and
its current phase. A task is referenced by playing_task only while it
is live: the task body clears the field when it finishes, and skip
clears it when it cancels, so a referenced task is never done. -/
structure PlayTask where
  tid : Nat
  phase : TaskPhase
deriving DecidableEq

/-- The Playlist state: the pending queue (waiting), the optional
background-task handle (playing_task), the now-playing slot
(playing_video), the deadline timestamp (playing_until), plus two
model registers: a fresh task-id counter and the wall clock. -/
structure Playlist where
  waiting : List Entry
  playing_task : Option PlayTask
  playing_video : Option Entry
  playing_until : Option Int
  next_tid : Nat
  now : Int
deriving DecidableEq

/-- The state built by Playlist.__init__: empty queue, no task, empty
now-playing slot and deadline; clock starts at zero. -/
def Playlist.init : Playlist :=
  { waiting := []
  , playing_task := none
  , playing_video := none
  , playing_until := none
  , next_tid := 0
  , now := 0 }

/-- Playlist.playing: the task field is set and the task is not done.
A referenced task is never done in this model (see PlayTask), so this
is exactly isSome. -/
def Playlist.playing (s : Playlist) : Bool := s.playing_task.isSome

/-- Playlist.play: if the queue is nonempty and nothing is playing,
launch a fresh background task and report true; otherwise report false
and change nothing. -/
def Playlist.play (s : Playlist) : Bool × Playlist :=
  if s.waiting ≠ [] ∧ s.playing = false then
    (true,
      { s with
          playing_task := some { tid := s.next_tid, phase := TaskPhase.atLoop }
          , next_tid := s.next_tid + 1 })
  else
    (false, s)

/-- Playlist.skip: if a live task is referenced, cancel it and clear
the handle (the cancelled task unwinds at its suspension point and
performs no further writes, in particular it does not clear
playing_video or playing_until); then call play. -/
def Playlist.skip (s : Playlist) : Playlist :=
  let s' := if s.playing then { s with playing_task := none } else s
  (Playlist.play s').2

/-- One atomic scheduling step of the background task running
Playlist._play. At the loop head: if the queue is empty, clear the
task handle, the now-playing slot and the deadline, and finish;
otherwise pop the front entry, publish it as now playing, set the
deadline to now plus its scheduled duration, and suspend in the sleep.
While sleeping: wake back to the loop head once the clock has reached
the deadline. -/
def Playlist.playLoopStep (s : Playlist) : Playlist :=
  match s.playing_task with
  | none => s
  | some t =>
    match t.phase with
    | TaskPhase.atLoop =>
      match s.waiting with
      | [] =>
        { s with playing_task := none, playing_video := none, playing_until := none }
      | e :: rest =>
        { s with
            waiting := rest
            , playing_video := some e
            , playing_until := some (s.now + e.1.duration)
            , playing_task := some { tid := t.tid, phase := TaskPhase.sleeping } }
    | TaskPhase.sleeping =>
      match s.playing_until with
      | some u =>
        if u ≤ s.now then
          { s with playing_task := some { tid := t.tid, phase := TaskPhase.atLoop } }
        else s
      | none => s

/-- Playlist.insert: with before absent, append and return the old
length; with nonnegative before, insert before that index (clamped to
append) and return min(before, new length - 1); with negative before,
reject with none and change nothing. -/
def Playlist.insert (s : Playlist) (video : Video) (player : String)
    (before : Option Int) : Option Int × Playlist :=
  let element : Entry := (video, player)
  match before with
  | none =>
    (some (s.waiting.length : Int),
      { s with waiting := s.waiting ++ [element] })
  | some b =>
    if 0 ≤ b then
      let w := pyInsertAt s.waiting b.toNat element
      (some (min b ((w.length : Int) - 1)), { s with waiting := w })
    else
      (none, s)

/-- Playlist.delete: negative positions give none; otherwise pop the
entry at the position, giving none when the position is out of range
(the IndexError case). -/
def Playlist.delete (s : Playlist) (position : Int) : Option Entry × Playlist :=
  if position < 0 then (none, s)
  else
    match s.waiting.get? position.toNat with
    | none => (none, s)
    | some e =>
      (some e,
        { s with
            waiting := s.waiting.take position.toNat ++ s.waiting.drop (position.toNat + 1) })

/-- Playlist.deleteall: unconditionally clear the pending queue. -/
def Playlist.deleteall (s : Playlist) : Playlist := { s with waiting := [] }

/-- Playlist.get: index -1 while playing gives the now-playing slot;
every other index is looked up in waiting with Python indexing,
including negative-index wraparound. -/
def Playlist.get (s : Playlist) (i : Int) : Option Entry :=
  if i = -1 ∧ s.playing = true then s.playing_video
  else pyIndex s.waiting i

/-- Playlist.playtime_left: the source tests the Python truthiness of
playing_until, so an absent or zero deadline gives a zero duration;
otherwise the result is deadline minus now, with no clamping. -/
def Playlist.playtime_left (s : Playlist) : Int :=
  match s.playing_until with
  | some t => if t = 0 then 0 else t - s.now
  | none => 0

/-- Playlist.playtime_until: playtime_left plus the sum of the
scheduled durations of waiting[:position] (of all of waiting when the
position is absent). -/
def Playlist.playtime_until (s : Playlist) (position : Option Int) : Int :=
  let videos := match position with
    | none => s.waiting
    | some p => pySliceTo s.waiting p
  s.playtime_left + (videos.map (fun e => e.1.duration)).sum

/-- Repeated calls of Playlist.play, discarding the reported Bool:
playN n s is the state after n consecutive calls. -/
def Playlist.playN : Nat → Playlist → Playlist
  | 0, s => s
  | n + 1, s => Playlist.playN n (Playlist.play s).2

/-- One atomic step of the single-threaded system: any synchronous
Playlist method called by a command handler, one scheduling step of the
background task, or the wall clock advancing. -/
inductive Step : Playlist → Playlist → Prop
  | enqueue (s : Playlist) (video : Video) (player : String) :
      Step s (Playlist.insert s video player none).2
  | insertAt (s : Playlist) (video : Video) (player : String) (b : Int) :
      Step s (Playlist.insert s video player (some b)).2
  | deleteAt (s : Playlist) (p : Int) :
      Step s (Playlist.delete s p).2
  | deleteAll (s : Playlist) :
      Step s (Playlist.deleteall s)
  | playCall (s : Playlist) :
      Step s (Playlist.play s).2
  | skipCall (s : Playlist) :
      Step s (Playlist.skip s)
  | taskRun (s : Playlist) :
      Step s (Playlist.playLoopStep s)
  | tick (s : Playlist) (d : Nat) :
      Step s { s with now := s.now + (d : Int) }

/-- The states reachable from the freshly constructed Playlist by any
sequence of atomic steps. -/
def Reachable (s : Playlist) : Prop :=
  Relation.ReflTransGen Step Playlist.init s

/-- A concrete video used in witnesses and counterexamples. -/
def vEx : Video :=
  { id := "dQw4w9WgXcQ", title := "a", raw_duration := 180, blocked := none, allowed := none }

/-- A concrete queue entry. -/
def eEx : Entry := (vEx, "alice")

/-- Intermediate state: one entry enqueued on the fresh playlist. -/
def s1Ex : Playlist :=
  { waiting := [eEx], playing_task := none, playing_video := none
  , playing_until := none, next_tid := 0, now := 0 }

/-- Intermediate state: play has launched task 0, which has not yet
run. -/
def s2Ex : Playlist :=
  { waiting := [eEx]
  , playing_task := some { tid := 0, phase := TaskPhase.atLoop }
  , playing_video := none, playing_until := none, next_tid := 1, now := 0 }

/-- Intermediate state: task 0 has popped the entry and is sleeping
until its deadline 184 = 180 + DELAY. -/
def s3Ex : Playlist :=
  { waiting := []
  , playing_task := some { tid := 0, phase := TaskPhase.sleeping }
  , playing_video := some eEx, playing_until := some 184, next_tid := 1, now := 0 }

/-- The stale state after skip cancels task 0 and finds the queue
empty: idle, but the now-playing slot and deadline are still set. -/
def s4Stale : Playlist :=
  { waiting := []
  , playing_task := none
  , playing_video := some eEx, playing_until := some 184, next_tid := 1, now := 0 }

/-- Concrete state for the C2 bug: nothing playing, one pending
entry. -/
def c2State : Playlist :=
  { waiting := [eEx], playing_task := none, playing_video := none
  , playing_until := none, next_tid := 0, now := 0 }

/-- Concrete state for the C3 counterexample: playing, deadline 5, but
the clock has already advanced to 10. -/
def c3State : Playlist :=
  { waiting := []
  , playing_task := some { tid := 0, phase := TaskPhase.sleeping }
  , playing_video := some eEx, playing_until := some 5, next_tid := 1, now := 10 }

/-- Concrete state for the C3 witness: playing, deadline 5, clock at 2,
one pending entry of nonnegative duration. -/
def c3Wit : Playlist :=
  { waiting := [eEx]
  , playing_task := some { tid := 0, phase := TaskPhase.sleeping }
  , playing_video := some eEx, playing_until := some 5, next_tid := 1, now := 2 }

/-! Helper lemmas. -/

theorem pyInsertAt_length {α : Type} (l : List α) (i : Nat) (x : α) :
    (pyInsertAt l i x).length = l.length + 1 := by
  simp only [pyInsertAt, List.length_append, List.length_take, List.length_cons,
    List.length_drop]
  omega

theorem insert_frame (s : Playlist) (v : Video) (pl : String) (b : Option Int) :
    ((Playlist.insert s v pl b).2.playing_task = s.playing_task
      ∧ (Playlist.insert s v pl b).2.playing_video = s.playing_video
      ∧ (Playlist.insert s v pl b).2.playing_until = s.playing_until
      ∧ (Playlist.insert s v pl b).2.next_tid = s.next_tid
      ∧ (Playlist.insert s v pl b).2.now = s.now) := by
  cases b with
  | none => simp [Playlist.insert]
  | some b =>
    by_cases hb : 0 ≤ b <;> simp [Playlist.insert, hb]

theorem delete_frame (s : Playlist) (p : Int) :
    ((Playlist.delete s p).2.playing_task = s.playing_task
      ∧ (Playlist.delete s p).2.playing_video = s.playing_video
      ∧ (Playlist.delete s p).2.playing_until = s.playing_until
      ∧ (Playlist.delete s p).2.next_tid = s.next_tid
      ∧ (Playlist.delete s p).2.now = s.now) := by
  by_cases hp : p < 0
  · simp [Playlist.delete, hp]
  · cases hg : s.waiting[p.toNat]? <;>
      simp [Playlist.delete, hp, List.get?_eq_getElem?, hg]

theorem deleteall_frame (s : Playlist) :
    ((Playlist.deleteall s).playing_task = s.playing_task
      ∧ (Playlist.deleteall s).playing_video = s.playing_video
      ∧ (Playlist.deleteall s).playing_until = s.playing_until
      ∧ (Playlist.deleteall s).next_tid = s.next_tid
      ∧ (Playlist.deleteall s).now = s.now) := by
  simp [Playlist.deleteall]

/-- C1: while a live background task exists, Playlist.play reports
false and is a no-op: the state, in particular the task handle and the
fresh-id counter, is exactly unchanged, and so it stays over any number
of repeated calls. -/
theorem C1_thm (s : Playlist) (h : s.playing = true) :
    Playlist.play s = (false, s) ∧ ∀ n : Nat, Playlist.playN n s = s := by
  have hp : Playlist.play s = (false, s) := by
    simp [Playlist.play, h]
  refine ⟨hp, ?_⟩
  intro n
  induction n with
  | zero => rfl
  | succ n ih =>
    show Playlist.playN n (Playlist.play s).2 = s
    rw [hp]
    exact ih

/-- Witness for C1 at a concrete playing state. -/
theorem C1_thm_witness :
    Playlist.play s2Ex = (false, s2Ex) ∧ Playlist.playN 3 s2Ex = s2Ex :=
  ⟨(C1_thm s2Ex rfl).1, (C1_thm s2Ex rfl).2 3⟩

/-- C5: Playlist.insert with before at or beyond the current length
appends the entry at the end (position equal to the pre-insert length
L) and returns L, which is the new length minus one; with before
strictly inside the range it inserts before that index and returns it
unchanged. -/
theorem C5_thm (s : Playlist) (v : Video) (pl : String) (b : Int) :
    ((s.waiting.length : Int) ≤ b →
      Playlist.insert s v pl (some b)
        = (some (s.waiting.length : Int),
            { s with waiting := s.waiting ++ [(v, pl)] }))
    ∧ (0 ≤ b → b < (s.waiting.length : Int) →
      Playlist.insert s v pl (some b)
        = (some b,
            { s with waiting :=
                s.waiting.take b.toNat ++ (v, pl) :: s.waiting.drop b.toNat })) := by
  constructor
  · intro h
    have hb : 0 ≤ b := le_trans (Int.ofNat_nonneg s.waiting.length) h
    have hlen : s.waiting.length ≤ b.toNat := by omega
    have htake : s.waiting.take b.toNat = s.waiting := List.take_of_length_le hlen
    have hdrop : s.waiting.drop b.toNat = [] := List.drop_eq_nil_of_le hlen
    have hw : pyInsertAt s.waiting b.toNat (v, pl) = s.waiting ++ [(v, pl)] := by
      rw [pyInsertAt, htake, hdrop]
    have hmin : min b (((pyInsertAt s.waiting b.toNat ((v : Video), pl)).length : Int) - 1)
        = (s.waiting.length : Int) := by
      rw [pyInsertAt_length]
      have : ((s.waiting.length + 1 : Nat) : Int) - 1 = (s.waiting.length : Int) := by
        push_cast
        ring
      rw [this]
      exact min_eq_right h
    simp only [Playlist.insert, if_pos hb]
    rw [hmin, hw]
  · intro hb hlt
    have hmin : min b (((pyInsertAt s.waiting b.toNat ((v : Video), pl)).length : Int) - 1)
        = b := by
      rw [pyInsertAt_length]
      have : ((s.waiting.length + 1 : Nat) : Int) - 1 = (s.waiting.length : Int) := by
        push_cast
        ring
      rw [this]
      exact min_eq_left (le_of_lt hlt)
    simp only [Playlist.insert, if_pos hb]
    rw [hmin, pyInsertAt]

/-- Witness for C5: on a one-entry queue, inserting with before = 5
appends and returns 1; inserting with before = 0 puts the entry first
and returns 0. -/
theorem C5_thm_witness :
    Playlist.insert s1Ex vEx "bob" (some 5)
      = (some (s1Ex.waiting.length : Int),
          { s1Ex with waiting := s1Ex.waiting ++ [(vEx, "bob")] })
    ∧ Playlist.insert s1Ex vEx "bob" (some 0)
      = (some 0,
          { s1Ex with waiting :=
              s1Ex.waiting.take (0 : Int).toNat
                ++ (vEx, "bob") :: s1Ex.waiting.drop (0 : Int).toNat }) :=
  ⟨(C5_thm s1Ex vEx "bob" 5).1 (by decide),
   (C5_thm s1Ex vEx "bob" 0).2 (by decide) (by decide)⟩

/-- C6: Playlist.insert with a negative before is rejected with none
and leaves the whole state, in particular the pending queue,
unchanged. -/
theorem C6_thm (s : Playlist) (v : Video) (pl : String) (b : Int) (h : b < 0) :
    Playlist.insert s v pl (some b) = (none, s) := by
  simp [Playlist.insert, not_le.mpr h]

/-- Witness for C6 at before = -1 on a one-entry queue. -/
theorem C6_thm_witness : Playlist.insert s1Ex vEx "alice" (some (-1)) = (none, s1Ex) :=
  C6_thm s1Ex vEx "alice" (-1) (by decide)

/-- C7: Playlist.delete returns none, not a fault, for every negative
position and every position at or beyond the length; for a position in
range it removes and returns the entry there, the earlier entries
staying in place and the later ones shifting down by one. -/
theorem C7_thm (s : Playlist) (p : Int) :
    (p < 0 → Playlist.delete s p = (none, s))
    ∧ ((s.waiting.length : Int) ≤ p → Playlist.delete s p = (none, s))
    ∧ (0 ≤ p → p < (s.waiting.length : Int) →
      Playlist.delete s p
        = (s.waiting.get? p.toNat,
            { s with waiting :=
                s.waiting.take p.toNat ++ s.waiting.drop (p.toNat + 1) })) := by
  refine ⟨?_, ?_, ?_⟩
  · intro h
    simp [Playlist.delete, h]
  · intro h
    have hp : ¬ p < 0 := by omega
    have hlen : s.waiting.length ≤ p.toNat := by omega
    have hg : s.waiting.get? p.toNat = none := List.get?_len_le hlen
    simp only [Playlist.delete, if_neg hp, hg]
  · intro h0 hlt
    have hp : ¬ p < 0 := by omega
    have hlen : p.toNat < s.waiting.length := by omega
    have hg : s.waiting.get? p.toNat = some (s.waiting.get ⟨p.toNat, hlen⟩) :=
      List.get?_eq_get hlen
    simp only [Playlist.delete, if_neg hp]
    rw [hg]

/-- Witness for C7: on a one-entry queue, delete at -1 and at 5 both
give none with the queue untouched, and delete at 0 removes and
returns the single entry. -/
theorem C7_thm_witness :
    Playlist.delete s1Ex (-1) = (none, s1Ex)
    ∧ Playlist.delete s1Ex 5 = (none, s1Ex)
    ∧ Playlist.delete s1Ex 0
      = (s1Ex.waiting.get? (0 : Int).toNat,
          { s1Ex with waiting :=
              s1Ex.waiting.take (0 : Int).toNat
                ++ s1Ex.waiting.drop ((0 : Int).toNat + 1) }) :=
  ⟨(C7_thm s1Ex (-1)).1 (by decide),
   (C7_thm s1Ex 5).2.1 (by decide),
   (C7_thm s1Ex 0).2.2 (by decide) (by decide)⟩

/-- C8: for every nonnegative position p, Playlist.playtime_until at p
is playtime_left plus the sum of the scheduled durations of the first
p pending entries (the slice waiting[:p], which clamps at the length);
with the position absent it is playtime_left plus the sum over the
whole pending queue. -/
theorem C8_thm (s : Playlist) (p : Int) :
    (0 ≤ p →
      Playlist.playtime_until s (some p)
        = Playlist.playtime_left s
            + ((s.waiting.take p.toNat).map (fun e => e.1.duration)).sum)
    ∧ Playlist.playtime_until s none
        = Playlist.playtime_left s
            + (s.waiting.map (fun e => e.1.duration)).sum := by
  constructor
  · intro hp
    simp [Playlist.playtime_until, pySliceTo, hp]
  · simp [Playlist.playtime_until]

/-- Witness for C8 on a concrete playing state with one pending
entry, at position 1. -/
theorem C8_thm_witness :
    Playlist.playtime_until c3Wit (some 1)
      = Playlist.playtime_left c3Wit
          + ((c3Wit.waiting.take (1 : Int).toNat).map (fun e => e.1.duration)).sum :=
  (C8_thm c3Wit 1).1 (by decide)

/-- C9: the mutation operations insert (both the append form used by
enqueue and the positional form), delete and deleteall touch only the
pending queue: the task handle, the now-playing slot, the deadline,
the fresh-id counter and the clock are unchanged; and deleteall clears
the pending queue unconditionally. -/
theorem C9_thm (s : Playlist) (v : Video) (pl : String) (b : Option Int) (p : Int) :
    ((Playlist.insert s v pl b).2.playing_task = s.playing_task
      ∧ (Playlist.insert s v pl b).2.playing_video = s.playing_video
      ∧ (Playlist.insert s v pl b).2.playing_until = s.playing_until
      ∧ (Playlist.insert s v pl b).2.next_tid = s.next_tid
      ∧ (Playlist.insert s v pl b).2.now = s.now)
    ∧ ((Playlist.delete s p).2.playing_task = s.playing_task
      ∧ (Playlist.delete s p).2.playing_video = s.playing_video
      ∧ (Playlist.delete s p).2.playing_until = s.playing_until
      ∧ (Playlist.delete s p).2.next_tid = s.next_tid
      ∧ (Playlist.delete s p).2.now = s.now)
    ∧ ((Playlist.deleteall s).playing_task = s.playing_task
      ∧ (Playlist.deleteall s).playing_video = s.playing_video
      ∧ (Playlist.deleteall s).playing_until = s.playing_until
      ∧ (Playlist.deleteall s).next_tid = s.next_tid
      ∧ (Playlist.deleteall s).now = s.now)
    ∧ (Playlist.deleteall s).waiting = [] :=
  ⟨insert_frame s v pl b, delete_frame s p, deleteall_frame s, rfl⟩

/-- C2 evidence: in the concrete state with nothing playing and one
pending entry, Playlist.get at -1 returns that pending entry through
the Python negative-index wraparound of waiting[-1], instead of the
absent result the specification describes. -/
theorem C2_bug_eval :
    c2State.playing = false
    ∧ c2State.waiting ≠ []
    ∧ Playlist.get c2State (-1) = some eEx := by
  decide

/-- C3 counterexample: in the concrete playing state with deadline 5
and clock 10, playtime_left is -5, not the clamped value
max(5 - 10, 0) = 0, and the eta at position 0 is negative. -/
theorem C3_counterexample :
    c3State.playing = true
    ∧ Playlist.playtime_left c3State ≠ max ((5 : Int) - c3State.now) 0
    ∧ Playlist.playtime_until c3State (some 0) < 0 := by
  decide

/-- C3 amended: playtime_left is deadline minus now, with no clamping,
whenever the stored deadline is set and nonzero (even when no task is
live), and zero otherwise; the eta values are nonnegative only under
the extra assumptions that the clock has not passed the deadline and
the pending durations are nonnegative. -/
theorem C3_thm (s : Playlist) :
    (s.playing_until = none → Playlist.playtime_left s = 0)
    ∧ (∀ t : Int, s.playing_until = some t → t ≠ 0 →
        Playlist.playtime_left s = t - s.now)
    ∧ (∀ t : Int, s.playing_until = some t → t ≠ 0 → s.now ≤ t →
        (∀ e ∈ s.waiting, 0 ≤ Video.duration e.1) →
        ∀ p : Int, 0 ≤ Playlist.playtime_until s (some p)) := by
  refine ⟨?_, ?_, ?_⟩
  · intro h
    simp [Playlist.playtime_left, h]
  · intro t ht htz
    simp [Playlist.playtime_left, ht, htz]
  · intro t ht htz hnow hdur p
    have hleft : 0 ≤ Playlist.playtime_left s := by
      simp only [Playlist.playtime_left, ht, if_neg htz]
      omega
    have hsum : 0 ≤ ((pySliceTo s.waiting p).map (fun e => e.1.duration)).sum := by
      apply List.sum_nonneg
      intro x hx
      obtain ⟨e, he, hex⟩ := List.mem_map.mp hx
      have hmem : e ∈ s.waiting := by
        have hsub : pySliceTo s.waiting p ⊆ s.waiting := by
          unfold pySliceTo
          by_cases hp : 0 ≤ p
          · rw [if_pos hp]
            exact List.take_subset _ _
          · rw [if_neg hp]
            exact List.take_subset _ _
        exact hsub he
      rw [← hex]
      exact hdur e hmem
    have : Playlist.playtime_until s (some p)
        = Playlist.playtime_left s
            + ((pySliceTo s.waiting p).map (fun e => e.1.duration)).sum := by
      simp [Playlist.playtime_until]
    rw [this]
    exact add_nonneg hleft hsum

/-- Witness for C3 at three concrete states: the fresh playlist has
playtime_left zero; the overdue state has the unclamped value -5; and
the in-time state with one nonnegative-duration entry has a
nonnegative eta at position 1. -/
theorem C3_thm_witness :
    Playlist.playtime_left Playlist.init = 0
    ∧ Playlist.playtime_left c3State = 5 - c3State.now
    ∧ 0 ≤ Playlist.playtime_until c3Wit (some 1) :=
  ⟨(C3_thm Playlist.init).1 rfl,
   (C3_thm c3State).2.1 5 rfl (by decide),
   (C3_thm c3Wit).2.2 5 rfl (by decide) (by decide) (by decide) 1⟩

/-- C10: Playlist.skip with no task referenced does not fail: it is
exactly a call to play, so with an empty queue the state is unchanged
(still idle), and with a nonempty queue it launches a fresh task
against the front of the queue just as play would, leaving the queue
itself untouched. -/
theorem C10_thm (s : Playlist) (h : s.playing_task = none) :
    Playlist.skip s = (Playlist.play s).2
    ∧ (s.waiting = [] → Playlist.skip s = s)
    ∧ (s.waiting ≠ [] →
        (Playlist.skip s).playing = true
        ∧ (Playlist.skip s).playing_task
            = some { tid := s.next_tid, phase := TaskPhase.atLoop }
        ∧ (Playlist.skip s).waiting = s.waiting) := by
  have hplaying : s.playing = false := by
    simp [Playlist.playing, h]
  have hskip : Playlist.skip s = (Playlist.play s).2 := by
    simp [Playlist.skip, hplaying]
  refine ⟨hskip, ?_, ?_⟩
  · intro hw
    rw [hskip]
    simp [Playlist.play, hw]
  · intro hw
    rw [hskip]
    simp [Playlist.play, Playlist.playing, hw, hplaying, h]

/-- Witness for C10: skip on the fresh empty playlist stays idle and
unchanged; skip on the idle one-entry state launches task 0. -/
theorem C10_thm_witness :
    Playlist.skip Playlist.init = Playlist.init
    ∧ (Playlist.skip s1Ex).playing_task
        = some { tid := s1Ex.next_tid, phase := TaskPhase.atLoop } :=
  ⟨(C10_thm Playlist.init rfl).2.1 rfl,
   ((C10_thm s1Ex rfl).2.2 (by decide)).2.1⟩

/-- Playlist.play never writes the now-playing slot or the
deadline. -/
theorem play_frame (s : Playlist) :
    ((Playlist.play s).2.playing_video = s.playing_video
      ∧ (Playlist.play s).2.playing_until = s.playing_until) := by
  unfold Playlist.play
  split <;> simp

/-- Playlist.skip never writes the now-playing slot or the deadline:
it only clears the task handle and calls play. -/
theorem skip_frame (s : Playlist) :
    ((Playlist.skip s).playing_video = s.playing_video
      ∧ (Playlist.skip s).playing_until = s.playing_until) := by
  simp only [Playlist.skip]
  constructor
  · rw [(play_frame (if s.playing = true then { s with playing_task := none } else s)).1]
    split <;> rfl
  · rw [(play_frame (if s.playing = true then { s with playing_task := none } else s)).2]
    split <;> rfl

/-- A scheduling step of the background task preserves the
biconditional between the now-playing slot and the deadline being
set: the task writes or clears the two fields together. -/
theorem playLoopStep_videoIffUntil (s : Playlist)
    (ih : s.playing_video = none ↔ s.playing_until = none) :
    ((Playlist.playLoopStep s).playing_video = none
      ↔ (Playlist.playLoopStep s).playing_until = none) := by
  unfold Playlist.playLoopStep
  repeat' split
  all_goals try exact ih
  all_goals simp

/-- Every atomic step preserves the biconditional between the
now-playing slot and the deadline being set. -/
theorem step_preserves_videoIffUntil (s s' : Playlist) (hstep : Step s s')
    (ih : s.playing_video = none ↔ s.playing_until = none) :
    s'.playing_video = none ↔ s'.playing_until = none := by
  cases hstep with
  | enqueue v pl =>
    have h := insert_frame s v pl none
    rw [h.2.1, h.2.2.1]
    exact ih
  | insertAt v pl b =>
    have h := insert_frame s v pl (some b)
    rw [h.2.1, h.2.2.1]
    exact ih
  | deleteAt p =>
    have h := delete_frame s p
    rw [h.2.1, h.2.2.1]
    exact ih
  | deleteAll =>
    have h := deleteall_frame s
    rw [h.2.1, h.2.2.1]
    exact ih
  | playCall =>
    have h := play_frame s
    rw [h.1, h.2]
    exact ih
  | skipCall =>
    have h := skip_frame s
    rw [h.1, h.2]
    exact ih
  | taskRun =>
    exact playLoopStep_videoIffUntil s ih
  | tick d =>
    simpa using ih

/-- The stale state is reachable: enqueue one entry, call play, let
the task pop the entry and start sleeping, then skip while the queue
is empty. -/
theorem reach_s4Stale : Reachable s4Stale := by
  have h1 : Step Playlist.init s1Ex := by
    have h := Step.enqueue Playlist.init vEx "alice"
    have e : (Playlist.insert Playlist.init vEx "alice" none).2 = s1Ex := by decide
    rwa [e] at h
  have h2 : Step s1Ex s2Ex := by
    have h := Step.playCall s1Ex
    have e : (Playlist.play s1Ex).2 = s2Ex := by decide
    rwa [e] at h
  have h3 : Step s2Ex s3Ex := by
    have h := Step.taskRun s2Ex
    have e : Playlist.playLoopStep s2Ex = s3Ex := by decide
    rwa [e] at h
  have h4 : Step s3Ex s4Stale := by
    have h := Step.skipCall s3Ex
    have e : Playlist.skip s3Ex = s4Stale := by decide
    rwa [e] at h
  exact Relation.ReflTransGen.tail
    (Relation.ReflTransGen.tail
      (Relation.ReflTransGen.tail
        (Relation.ReflTransGen.tail Relation.ReflTransGen.refl h1) h2) h3) h4

/-- C4 counterexample: a reachable state that is idle (no background
task) yet still has an entry in the now-playing slot, obtained by
skipping while the queue is empty: the cancelled task never clears the
slot and play finds nothing to start. -/
theorem C4_counterexample :
    Reachable s4Stale
    ∧ s4Stale.playing_task = none
    ∧ s4Stale.playing_video ≠ none :=
  ⟨reach_s4Stale, rfl, by decide⟩

/-- C4 amended: in every reachable state the now-playing slot is set
if and only if the deadline is set; the Idle-implies-empty half of the
original claim is dropped, since a skip that cancels the task and
finds the queue empty leaves an idle state whose stale now-playing
slot and deadline are still set. -/
theorem C4_thm (s : Playlist) (h : Reachable s) :
    s.playing_video = none ↔ s.playing_until = none := by
  induction h with
  | refl => simp [Playlist.init]
  | tail _ hstep ih => exact step_preserves_videoIffUntil _ _ hstep ih

/-- Witness for C4 at the reachable stale state: its now-playing slot
and deadline are both set, consistently with the biconditional. -/
theorem C4_thm_witness :
    (s4Stale.playing_video = none ↔ s4Stale.playing_until = none) :=
  C4_thm s4Stale reach_s4Stale
